import Mathlib

/-!
Verification of the QCodeEditor repository's specified behaviour.

The definitions below shallowly embed the C++ code of the repository:
  * `QCodeEditor::InternalSpan` (include/internal/QCodeEditor.hpp), the
    closed-interval type stored in the diagnostic interval tree;
  * `QCodeEditor::DiagnosticSeverity` (include/internal/QCodeEditor.hpp);
  * `QLineNumberArea::addDiagnosticMarker`, `clearDiagnosticMarkers`,
    `updateEditorLineCount`, `intToFontWeight` and the block loop of
    `paintEvent` (src/internal/QLineNumberArea.cpp).
C++ `int` values are embedded as `Int`; none of the verified operations
relies on wrap-around, so no modular reduction is applied.
-/

namespace QCodeEditorSpec

/-- `QCodeEditor::DiagnosticSeverity`: `Hint`, `Information`, `Warning`,
`Error`, declared in this order, so the underlying values are 0..3
("the bigger the more important"). -/
inductive DiagnosticSeverity where
  | Hint
  | Information
  | Warning
  | Error
deriving DecidableEq, Repr

/-- The underlying integral value of the C++ enum constant (declaration
order, starting at 0). -/
def DiagnosticSeverity.toNat : DiagnosticSeverity → Nat
  | .Hint => 0
  | .Information => 1
  | .Warning => 2
  | .Error => 3

/-- C++ `<` on `DiagnosticSeverity` compares the underlying values. -/
def DiagnosticSeverity.lt (a b : DiagnosticSeverity) : Bool :=
  decide (a.toNat < b.toNat)

/-- `≤` in the severity order `Hint < Information < Warning < Error`. -/
def DiagnosticSeverity.le (a b : DiagnosticSeverity) : Bool :=
  decide (a.toNat ≤ b.toNat)

/-- `qMax(a, b)`, i.e. `(a < b) ? b : a`, on `DiagnosticSeverity`. -/
def qMaxSev (a b : DiagnosticSeverity) : DiagnosticSeverity :=
  if a.lt b then b else a

/-- `QCodeEditor::InternalSpan`: a closed interval `[low_, high_]` over
C++ `int`, carrying the index `diagIndex` of the diagnostic it belongs to.
The constructor asserts `low <= high`; theorems take that invariant as a
hypothesis. -/
structure InternalSpan where
  low_ : Int
  high_ : Int
  diagIndex : Int
deriving DecidableEq, Repr

/-- `InternalSpan::low()`. -/
def InternalSpan.low (a : InternalSpan) : Int := a.low_

/-- `InternalSpan::high()`. -/
def InternalSpan.high (a : InternalSpan) : Int := a.high_

/-- `InternalSpan::overlaps(value_type l, value_type h)`:
`low_ <= h && l <= high_`. -/
def InternalSpan.overlaps (a : InternalSpan) (l h : Int) : Bool :=
  decide (a.low_ ≤ h) && decide (l ≤ a.high_)

/-- `InternalSpan::overlaps(InternalSpan const &other)`:
`overlaps(other.low_, other.high_)`. -/
def InternalSpan.overlapsSpan (a other : InternalSpan) : Bool :=
  a.overlaps other.low_ other.high_

/-- `operator==(InternalSpan const &lhs, InternalSpan const &other)`:
`lhs.low_ == other.low_ && lhs.high_ == other.high_`. -/
def InternalSpan.beq (lhs other : InternalSpan) : Bool :=
  decide (lhs.low_ = other.low_) && decide (lhs.high_ = other.high_)

/-- `operator!=(InternalSpan const &lhs, InternalSpan const &other)`:
`lhs.low_ != other.low_ || lhs.high_ != other.high_`. -/
def InternalSpan.bne (lhs other : InternalSpan) : Bool :=
  decide (lhs.low_ ≠ other.low_) || decide (lhs.high_ ≠ other.high_)

/-- `InternalSpan::operator-(InternalSpan const &other)`: 0 when the
intervals overlap, else the gap between the nearest endpoints. -/
def InternalSpan.sub (a other : InternalSpan) : Int :=
  if a.overlapsSpan other then 0
  else if a.high_ < other.low_ then other.low_ - a.high_
  else a.low_ - other.high_

/-- The gutter's per-line marker store `m_diagnosticMarkers`
(`QMap<int, QCodeEditor::DiagnosticSeverity>`), as a partial map from
line number to severity. -/
def DiagnosticMarkers := Int → Option DiagnosticSeverity

/-- One iteration of the loop body of
`QLineNumberArea::addDiagnosticMarker` at line `i`: if line `i` has no
marker, insert `severity`; otherwise replace the stored marker by
`qMax` of it and `severity`. -/
def markerStep (m : DiagnosticMarkers) (severity : DiagnosticSeverity)
    (i : Int) : DiagnosticMarkers :=
  fun j =>
    if j = i then
      match m i with
      | none => some severity
      | some old => some (qMaxSev old severity)
    else m j

/-- The loop `for (int i = startLine; i < endLine; ++i)` of
`QLineNumberArea::addDiagnosticMarker`, with `k` iterations remaining
and `i` the current loop counter. -/
def markerLoop (m : DiagnosticMarkers) (severity : DiagnosticSeverity)
    (i : Int) : Nat → DiagnosticMarkers
  | 0 => m
  | Nat.succ k => markerLoop (markerStep m severity i) severity (i + 1) k

/-- `QLineNumberArea::addDiagnosticMarker(severity, startLine, endLine)`:
run the marker loop over the lines `startLine ≤ i < endLine`. -/
def addDiagnosticMarker (m : DiagnosticMarkers)
    (severity : DiagnosticSeverity) (startLine endLine : Int) :
    DiagnosticMarkers :=
  markerLoop m severity startLine (endLine - startLine).toNat

/-- The marker stored for a line after the loop body ran on it: the new
severity when the line had none, otherwise `qMax` of old and new. -/
def mergedMarker (old : Option DiagnosticSeverity)
    (severity : DiagnosticSeverity) : Option DiagnosticSeverity :=
  match old with
  | none => some severity
  | some o => some (qMaxSev o severity)

/-- `QFont::Weight` constructor names, in increasing weight order. -/
inductive FontWeight where
  | Thin
  | ExtraLight
  | Light
  | Normal
  | Medium
  | DemiBold
  | Bold
  | ExtraBold
  | Black
deriving DecidableEq, Repr

/-- The underlying value of `QFont::Weight` (Qt 6 values; Qt 5 assigns
different numbers but in the same strict order, which is all the
comparisons below depend on). -/
def FontWeight.toNat : FontWeight → Nat
  | .Thin => 100
  | .ExtraLight => 200
  | .Light => 300
  | .Normal => 400
  | .Medium => 500
  | .DemiBold => 600
  | .Bold => 700
  | .ExtraBold => 800
  | .Black => 900

/-- C++ `<=` on `QFont::Weight` compares the underlying values. -/
def FontWeight.le (a b : FontWeight) : Bool :=
  decide (a.toNat ≤ b.toNat)

/-- `QLineNumberArea::intToFontWeight(int v)`: the if-chain of
thresholds mapping an int to a `QFont::Weight`. -/
def intToFontWeight (v : Int) : FontWeight :=
  if v ≤ 100 then .Thin
  else if v ≤ 200 then .ExtraLight
  else if v ≤ 300 then .Light
  else if v ≤ 400 then .Normal
  else if v ≤ 500 then .Medium
  else if v ≤ 600 then .DemiBold
  else if v ≤ 700 then .Bold
  else if v ≤ 800 then .Bold
  else if v ≤ 900 then .ExtraBold
  else .Black

/-- The number of decimal digits of `n`, i.e. the length of
`QString::number(n)` for `n ≥ 0` (the document's block count is
always at least 1). -/
def numberLength (n : Nat) : Nat :=
  if n < 10 then 1 else 1 + numberLength (n / 10)
decreasing_by
  exact Nat.div_lt_self (by omega) (by omega)

/-- The data `QLineNumberArea::updateEditorLineCount` reads from its
parent editor: the document's block count and the font metrics'
horizontal advance of the character `'9'`. -/
structure ParentEditor where
  blockCount : Nat
  advance9 : Nat

/-- The state touched by `QLineNumberArea::updateEditorLineCount`:
the optional parent editor `m_codeEditParent` and the widget's fixed
width. -/
structure LineNumberArea where
  codeEditParent : Option ParentEditor
  fixedWidth : Int

/-- `QLineNumberArea::updateEditorLineCount()`: return unchanged when
the parent is null; otherwise set the fixed width to
`15 + horizontalAdvance('9') * digits(blockCount)`. -/
def updateEditorLineCount (st : LineNumberArea) : LineNumberArea :=
  match st.codeEditParent with
  | none => st
  | some p =>
      { st with
        fixedWidth :=
          15 + (p.advance9 : Int) * (numberLength p.blockCount : Int) }

/-- A text block as seen by the block loop of
`QLineNumberArea::paintEvent`: whether the block is visible, and the
height of its bounding rectangle. -/
structure BlockInfo where
  isVisible : Bool
  height : Int

/-- The block loop of `QLineNumberArea::paintEvent`, starting at the
first visible block: it walks the blocks while `top <= dirtyBottom`,
draws `QString::number(blockNumber + 1)` for every visible block whose
bottom reaches `dirtyTop`, and advances `top` by the block's height.
Returns the (block number, drawn text) pairs passed to
`painter.drawText`; block numbers are the zero-based
`QTextBlock::blockNumber()` values, hence `Nat`. -/
def paintLoopDrawn (blocks : List BlockInfo) (blockNumber : Nat)
    (top dirtyTop dirtyBottom : Int) : List (Nat × String) :=
  match blocks with
  | [] => []
  | b :: rest =>
      if top ≤ dirtyBottom then
        (if b.isVisible && decide (dirtyTop ≤ top + b.height) then
          [(blockNumber, Nat.repr (blockNumber + 1))]
        else []) ++
        paintLoopDrawn rest (blockNumber + 1) (top + b.height) dirtyTop
          dirtyBottom
      else []

/-- `QCodeEditor::Diagnostic`: severity, span (start inclusive, end
exclusive), message and optional code. -/
structure Diagnostic where
  severity : DiagnosticSeverity
  spanStart : Int
  spanEnd : Int
  message : String
  code : String

/-- The editor state relevant to the diagnostic operations: the
document's text content (owned by the host framework's document) next
to the diagnostic display state `m_diagnostics`, `m_diagSpans` (the
interval tree, represented by its list of spans) and the gutter's
marker store. -/
structure EditorState where
  documentText : String
  diagnostics : List Diagnostic
  diagSpans : List InternalSpan
  markers : DiagnosticMarkers

/-- Modelled from the spec: the body of `QCodeEditor::addDiagnostic`
(QCodeEditor.cpp) is not among the sources at hand — only its
declaration in QCodeEditor.hpp is. Per the spec, diagnostics "are
supplied externally and merely rendered": the operation records the
diagnostic in `m_diagnostics`, inserts its span into the interval tree
`m_diagSpans`, and marks the gutter lines the span covers (the line
range is an input here, computed from the span by the host layout).
The document text is untouched. -/
def addDiagnostic (st : EditorState) (severity : DiagnosticSeverity)
    (spanStart spanEnd : Int) (message code : String)
    (startLine endLine : Int) : EditorState :=
  { st with
    diagnostics :=
      st.diagnostics ++ [⟨severity, spanStart, spanEnd, message, code⟩],
    diagSpans :=
      st.diagSpans ++ [⟨spanStart, spanEnd, (st.diagnostics.length : Int)⟩],
    markers := addDiagnosticMarker st.markers severity startLine endLine }

/-- `QLineNumberArea::clearDiagnosticMarkers()`:
`m_diagnosticMarkers.clear()` (followed by a repaint request). -/
def clearDiagnosticMarkers (_ : DiagnosticMarkers) : DiagnosticMarkers :=
  fun _ => none

/-- Modelled from the spec: the body of `QCodeEditor::clearDiagnostics`
(QCodeEditor.cpp) is not among the sources at hand — only its
declaration is. Per the spec it clears the recorded diagnostics and
their spans; the gutter part, `QLineNumberArea::clearDiagnosticMarkers`
(which is among the sources), clears the marker store. The document
text is untouched. -/
def clearDiagnostics (st : EditorState) : EditorState :=
  { st with
    diagnostics := [],
    diagSpans := [],
    markers := clearDiagnosticMarkers st.markers }

/-- A highlight rule (`QHighlightRule`): a regular expression with the
name of the format it applies. The regex engine is the host
framework's; a pattern is embedded as its match function, taking a
block's text to the list of (offset, length) matches. -/
structure QHighlightRule where
  pattern : String → List (Nat × Nat)
  formatName : String

/-- A multi-line block rule (`QHighlightBlockRule`, the element type of
`QPythonHighlighter::m_highlightBlockRules`; the GLSL highlighter's
`m_commentStartPattern`/`m_commentEndPattern` pair has the same shape):
regular expressions opening and closing a region that may span several
blocks, with the format applied to the region. Each pattern is
embedded as its first-match function on a block's text. -/
structure QHighlightBlockRule where
  startPattern : String → Option Nat
  endPattern : String → Option Nat
  formatName : String

/-- A block that starts inside region rule number `i` (carried over as
the previous block's state): the region's format runs from the start
of the block to the end pattern's first match, or to the block's end —
staying in state `i` — when the end pattern does not match. -/
def runBlockRule (r : QHighlightBlockRule) (i : Int) (text : String) :
    List (Nat × Nat × String) × Int :=
  match r.endPattern text with
  | none => ([(0, text.length, r.formatName)], i)
  | some e => ([(0, e, r.formatName)], -1)

/-- The first block rule (by vector order, counting from `i`) whose
start pattern matches the block's text, with its index and match
position. -/
def findStart : List QHighlightBlockRule → Nat → String →
    Option (Nat × QHighlightBlockRule × Nat)
  | [], _, _ => none
  | r :: rest, i, text =>
      match r.startPattern text with
      | some s => some (i, r, s)
      | none => findStart rest (i + 1) text

/-- A block that starts outside every region: the first block rule
whose start pattern matches opens a region at the match, closed by an
end match further right (state resets to -1) or left open to the
block's end (the rule's index becomes the block state). -/
def openBlockRule (rules : List QHighlightBlockRule) (text : String) :
    List (Nat × Nat × String) × Int :=
  match findStart rules 0 text with
  | none => ([], -1)
  | some (i, r, s) =>
      match r.endPattern text with
      | some e =>
          if s < e then ([(s, e - s, r.formatName)], -1)
          else ([(s, text.length - s, r.formatName)], (i : Int))
      | none => ([(s, text.length - s, r.formatName)], (i : Int))

/-- The cross-block pass over a block: continue the region the previous
block's state says the block starts in, when that state is a valid rule
index; otherwise look for a newly opening region. -/
def blockRulesPass (rules : List QHighlightBlockRule) (prevState : Int)
    (text : String) : List (Nat × Nat × String) × Int :=
  if h : 0 ≤ prevState ∧ prevState.toNat < rules.length then
    runBlockRule (rules.get ⟨prevState.toNat, h.2⟩) prevState text
  else openBlockRule rules text

/-- Modelled from the spec: the bodies of
`QPythonHighlighter::highlightBlock` and
`QGLSLHighlighter::highlightBlock` are not among the sources at hand —
only their declarations and rule members are: the fixed per-block rule
vector `m_highlightRules` and the `m_includePattern`,
`m_functionPattern`, `m_defTypePattern` patterns, plus the cross-block
members `m_highlightBlockRules` (Python) and
`m_commentStartPattern`/`m_commentEndPattern` (GLSL), which carry
multi-line regions across blocks through the block state. Per the
spec, highlighting "uses simple regular-expression rules, not a
grammar": a highlighter holds these fixed rules along with context
(such as the attached document) no rule consults. -/
structure HighlighterState where
  highlightRules : List QHighlightRule
  highlightBlockRules : List QHighlightBlockRule
  includePattern : QHighlightRule
  functionPattern : QHighlightRule
  defTypePattern : QHighlightRule
  documentContext : String

/-- The (offset, length, format name) triples a single rule produces on
a block's text. -/
def matchesOf (rule : QHighlightRule) (text : String) :
    List (Nat × Nat × String) :=
  (rule.pattern text).map (fun m => (m.1, m.2, rule.formatName))

/-- Modelled from the spec: `highlightBlock` takes the previous block's
state and the block's text; it runs every rule of the fixed rule
vector, then the include, function and defType patterns, over the
text, emitting a format for every match, and runs the cross-block pass,
returning the formats and the state passed to the next block. -/
def highlightBlock (st : HighlighterState) (prevState : Int)
    (text : String) : List (Nat × Nat × String) × Int :=
  let perBlock := ((st.highlightRules ++
      [st.includePattern, st.functionPattern, st.defTypePattern]).map
    (fun r => matchesOf r text)).foldr (· ++ ·) []
  let crossBlock := blockRulesPass st.highlightBlockRules prevState text
  (perBlock ++ crossBlock.1, crossBlock.2)

end QCodeEditorSpec

namespace QCodeEditorSpec

/-- C1: for an `InternalSpan` `a` with `a.low_ ≤ a.high_` and integers
`l ≤ h`, `a.overlaps l h` is true exactly when the closed intervals
`[a.low, a.high]` and `[l, h]` share a point, equivalently when
`a.low ≤ h ∧ l ≤ a.high`; and the one-argument `overlaps` on a span `b`
agrees with `overlaps b.low b.high`. -/
theorem overlaps_iff_nonempty_intersection (a : InternalSpan) (l h : Int)
    (hinv : a.low_ ≤ a.high_) (hlh : l ≤ h) :
    (a.overlaps l h = true ↔
      ∃ x : Int, (a.low ≤ x ∧ x ≤ a.high) ∧ (l ≤ x ∧ x ≤ h)) ∧
    (a.overlaps l h = true ↔ (a.low ≤ h ∧ l ≤ a.high)) ∧
    (∀ b : InternalSpan, a.overlapsSpan b = a.overlaps b.low b.high) := by
  refine ⟨?_, ?_, fun b => rfl⟩
  · simp only [InternalSpan.overlaps, InternalSpan.low, InternalSpan.high,
      Bool.and_eq_true, decide_eq_true_eq]
    constructor
    · rintro ⟨h1, h2⟩
      exact ⟨max a.low_ l, ⟨le_max_left _ _, max_le hinv h2⟩,
        ⟨le_max_right _ _, max_le h1 hlh⟩⟩
    · rintro ⟨x, ⟨hx1, hx2⟩, hx3, hx4⟩
      omega
  · simp only [InternalSpan.overlaps, InternalSpan.low, InternalSpan.high,
      Bool.and_eq_true, decide_eq_true_eq]

/-- Witness for C1 at the concrete span `[2, 5]` and interval `[4, 9]`. -/
theorem overlaps_iff_nonempty_intersection_witness :
    ((InternalSpan.mk 2 5 0).overlaps 4 9 = true ↔
      ∃ x : Int, ((InternalSpan.mk 2 5 0).low ≤ x ∧
        x ≤ (InternalSpan.mk 2 5 0).high) ∧ (4 ≤ x ∧ x ≤ 9)) ∧
    ((InternalSpan.mk 2 5 0).overlaps 4 9 = true ↔
      ((InternalSpan.mk 2 5 0).low ≤ 9 ∧ 4 ≤ (InternalSpan.mk 2 5 0).high)) ∧
    (∀ b : InternalSpan,
      (InternalSpan.mk 2 5 0).overlapsSpan b =
        (InternalSpan.mk 2 5 0).overlaps b.low b.high) :=
  overlaps_iff_nonempty_intersection (InternalSpan.mk 2 5 0) 4 9
    (by decide) (by decide)

/-- C6: `InternalSpan` equality compares only the endpoints — it holds
exactly when the `low` and `high` fields agree, whatever the `diagIndex`
fields are — and `!=` is its exact negation. -/
theorem internalSpan_eq_ignores_diagIndex (a b : InternalSpan) :
    (a.beq b = true ↔ (a.low = b.low ∧ a.high = b.high)) ∧
    (∀ d1 d2 : Int,
      (InternalSpan.mk a.low_ a.high_ d1).beq (InternalSpan.mk b.low_ b.high_ d2)
        = a.beq b) ∧
    (a.bne b = true ↔ ¬ a.beq b = true) := by
  refine ⟨?_, fun d1 d2 => rfl, ?_⟩
  · simp [InternalSpan.beq, InternalSpan.low, InternalSpan.high]
  · simp only [InternalSpan.bne, InternalSpan.beq, Bool.or_eq_true,
      Bool.and_eq_true, decide_eq_true_eq]
    tauto

/-- C7: the distance `a - b` is 0 exactly when the spans overlap; when
they do not, it is strictly positive and equals `b.low - a.high` when `a`
lies entirely below `b`, and `a.low - b.high` when `a` lies entirely
above `b`. -/
theorem sub_eq_zero_iff_overlaps (a b : InternalSpan)
    (ha : a.low_ ≤ a.high_) (hb : b.low_ ≤ b.high_) :
    (a.sub b = 0 ↔ a.overlapsSpan b = true) ∧
    (a.overlapsSpan b = false →
      0 < a.sub b ∧
      (a.high < b.low → a.sub b = b.low - a.high) ∧
      (b.high < a.low → a.sub b = a.low - b.high)) := by
  have hov : (a.overlapsSpan b = true) ↔ (a.low_ ≤ b.high_ ∧ b.low_ ≤ a.high_) := by
    simp [InternalSpan.overlapsSpan, InternalSpan.overlaps]
  unfold InternalSpan.sub
  simp only [InternalSpan.low, InternalSpan.high]
  by_cases hc : a.overlapsSpan b = true
  · rw [if_pos hc]
    refine ⟨⟨fun _ => hc, fun _ => rfl⟩, fun hfalse => ?_⟩
    simp [hc] at hfalse
  · rw [if_neg hc]
    have hno : ¬(a.low_ ≤ b.high_ ∧ b.low_ ≤ a.high_) := fun hcon => hc (hov.mpr hcon)
    refine ⟨⟨fun h0 => ?_, fun htrue => absurd htrue hc⟩, fun _ => ?_⟩
    · exfalso
      by_cases hg : a.high_ < b.low_
      · rw [if_pos hg] at h0
        omega
      · rw [if_neg hg] at h0
        omega
    · by_cases hg : a.high_ < b.low_
      · rw [if_pos hg]
        exact ⟨by omega, fun _ => rfl, fun h2 => by omega⟩
      · rw [if_neg hg]
        exact ⟨by omega, fun h1 => by omega, fun _ => rfl⟩

/-- Witness for C7 at the disjoint spans `[0, 1]` and `[4, 7]`. -/
theorem sub_eq_zero_iff_overlaps_witness :
    ((InternalSpan.mk 0 1 0).sub (InternalSpan.mk 4 7 0) = 0 ↔
      (InternalSpan.mk 0 1 0).overlapsSpan (InternalSpan.mk 4 7 0) = true) ∧
    ((InternalSpan.mk 0 1 0).overlapsSpan (InternalSpan.mk 4 7 0) = false →
      0 < (InternalSpan.mk 0 1 0).sub (InternalSpan.mk 4 7 0) ∧
      ((InternalSpan.mk 0 1 0).high < (InternalSpan.mk 4 7 0).low →
        (InternalSpan.mk 0 1 0).sub (InternalSpan.mk 4 7 0) =
          (InternalSpan.mk 4 7 0).low - (InternalSpan.mk 0 1 0).high) ∧
      ((InternalSpan.mk 4 7 0).high < (InternalSpan.mk 0 1 0).low →
        (InternalSpan.mk 0 1 0).sub (InternalSpan.mk 4 7 0) =
          (InternalSpan.mk 0 1 0).low - (InternalSpan.mk 4 7 0).high)) :=
  sub_eq_zero_iff_overlaps (InternalSpan.mk 0 1 0) (InternalSpan.mk 4 7 0)
    (by decide) (by decide)

/-- The marker loop, applied at a line `j`: lines in the remaining range
`[i, i + k)` get the merged marker, all others are untouched. -/
theorem markerLoop_apply (severity : DiagnosticSeverity) (k : Nat) :
    ∀ (m : DiagnosticMarkers) (i j : Int),
      markerLoop m severity i k j =
        if i ≤ j ∧ j < i + (k : Int) then mergedMarker (m j) severity
        else m j := by
  induction k with
  | zero =>
      intro m i j
      simp only [markerLoop]
      rw [if_neg (by omega)]
  | succ k ih =>
      intro m i j
      simp only [markerLoop]
      rw [ih]
      by_cases hj : j = i
      · subst hj
        rw [if_neg (by omega), if_pos (by constructor <;> omega)]
        simp [markerStep, mergedMarker]
      · have hms : markerStep m severity i j = m j := by
          rw [markerStep, if_neg hj]
        rw [hms]
        by_cases hcond : i + 1 ≤ j ∧ j < i + 1 + (k : Int)
        · rw [if_pos hcond, if_pos (by omega)]
        · rw [if_neg hcond, if_neg (by omega)]

/-- C2: after `addDiagnosticMarker(severity, startLine, endLine)`, every
line in `[startLine, endLine)` carries the maximum — in the order
`Hint < Information < Warning < Error` — of its previous marker (if any)
and the new severity; every other line, `endLine` included, is
unchanged; and `qMax` on severities is that order's maximum. -/
theorem addDiagnosticMarker_spec (m : DiagnosticMarkers)
    (severity : DiagnosticSeverity) (startLine endLine i : Int) :
    (startLine ≤ i → i < endLine →
      addDiagnosticMarker m severity startLine endLine i =
        mergedMarker (m i) severity) ∧
    (i < startLine ∨ endLine ≤ i →
      addDiagnosticMarker m severity startLine endLine i = m i) ∧
    (∀ x y : DiagnosticSeverity,
      (qMaxSev x y = x ∨ qMaxSev x y = y) ∧
      x.le (qMaxSev x y) = true ∧ y.le (qMaxSev x y) = true) := by
  refine ⟨?_, ?_, ?_⟩
  · intro h1 h2
    rw [addDiagnosticMarker, markerLoop_apply, if_pos (by constructor <;> omega)]
  · intro hout
    rw [addDiagnosticMarker, markerLoop_apply, if_neg (by omega)]
  · intro x y
    cases x <;> cases y <;> exact ⟨by decide, by decide, by decide⟩

/-- Witness for C2: with an empty marker store, marking lines `[0, 2)`
with `Warning` stores `Warning` at line 1 and leaves line 2 untouched. -/
theorem addDiagnosticMarker_spec_witness :
    ((0 : Int) ≤ 1 ∧ (1 : Int) < 2 ∧
      addDiagnosticMarker (fun _ => none) .Warning 0 2 1 =
        mergedMarker none .Warning) ∧
    ((2 : Int) < 0 ∨ (2 : Int) ≤ 2) ∧
    addDiagnosticMarker (fun _ => none) .Warning 0 2 2 = none :=
  ⟨⟨by decide, by decide,
    (addDiagnosticMarker_spec (fun _ => none) .Warning 0 2 1).1
      (by decide) (by decide)⟩,
   Or.inr (by decide),
   (addDiagnosticMarker_spec (fun _ => none) .Warning 0 2 2).2.1
     (Or.inr (by decide))⟩

/-- The underlying value of the weight returned by `intToFontWeight`,
as a piecewise numeric function of the input. -/
theorem intToFontWeight_toNat (v : Int) :
    (intToFontWeight v).toNat =
      if v ≤ 100 then 100
      else if v ≤ 200 then 200
      else if v ≤ 300 then 300
      else if v ≤ 400 then 400
      else if v ≤ 500 then 500
      else if v ≤ 600 then 600
      else if v ≤ 700 then 700
      else if v ≤ 800 then 700
      else if v ≤ 900 then 800
      else 900 := by
  rw [intToFontWeight]
  split_ifs <;> rfl

/-- Lower and upper bounds for the underlying value of
`intToFontWeight v`, per region of the input. -/
theorem intToFontWeight_toNat_bounds (v : Int) :
    (100 ≤ (intToFontWeight v).toNat ∧ (intToFontWeight v).toNat ≤ 900) ∧
    ((100 < v → 200 ≤ (intToFontWeight v).toNat) ∧
     (200 < v → 300 ≤ (intToFontWeight v).toNat) ∧
     (300 < v → 400 ≤ (intToFontWeight v).toNat) ∧
     (400 < v → 500 ≤ (intToFontWeight v).toNat) ∧
     (500 < v → 600 ≤ (intToFontWeight v).toNat) ∧
     (600 < v → 700 ≤ (intToFontWeight v).toNat) ∧
     (800 < v → 800 ≤ (intToFontWeight v).toNat) ∧
     (900 < v → 900 ≤ (intToFontWeight v).toNat)) ∧
    ((v ≤ 100 → (intToFontWeight v).toNat ≤ 100) ∧
     (v ≤ 200 → (intToFontWeight v).toNat ≤ 200) ∧
     (v ≤ 300 → (intToFontWeight v).toNat ≤ 300) ∧
     (v ≤ 400 → (intToFontWeight v).toNat ≤ 400) ∧
     (v ≤ 500 → (intToFontWeight v).toNat ≤ 500) ∧
     (v ≤ 600 → (intToFontWeight v).toNat ≤ 600) ∧
     (v ≤ 800 → (intToFontWeight v).toNat ≤ 700) ∧
     (v ≤ 900 → (intToFontWeight v).toNat ≤ 800)) := by
  rw [intToFontWeight_toNat]
  split_ifs <;> omega

/-- C8: `intToFontWeight` is a total function on the integers, it is
monotone with respect to the weight order, and every input in
`601..800` maps to `QFont::Bold`. -/
theorem intToFontWeight_monotone (v1 v2 v : Int) (h12 : v1 ≤ v2)
    (h601 : 601 ≤ v) (h800 : v ≤ 800) :
    (intToFontWeight v1).le (intToFontWeight v2) = true ∧
    intToFontWeight v = .Bold := by
  constructor
  · simp only [FontWeight.le, decide_eq_true_eq]
    have h1 := intToFontWeight_toNat_bounds v1
    have h2 := intToFontWeight_toNat_bounds v2
    omega
  · rw [intToFontWeight, if_neg (by omega), if_neg (by omega),
      if_neg (by omega), if_neg (by omega), if_neg (by omega),
      if_neg (by omega)]
    by_cases h7 : v ≤ 700
    · rw [if_pos h7]
    · rw [if_neg h7, if_pos h800]

/-- Witness for C8 at `v1 = 350`, `v2 = 650`, `v = 700`. -/
theorem intToFontWeight_monotone_witness :
    (intToFontWeight 350).le (intToFontWeight 650) = true ∧
    intToFontWeight 700 = .Bold :=
  intToFontWeight_monotone 350 650 700 (by decide) (by decide) (by decide)

/-- Every decimal representation has at least one digit. -/
theorem numberLength_pos (n : Nat) : 1 ≤ numberLength n := by
  rw [numberLength]
  split <;> omega

/-- The decimal digit count is monotone. -/
theorem numberLength_mono (a b : Nat) (h : a ≤ b) :
    numberLength a ≤ numberLength b := by
  induction b using Nat.strong_induction_on generalizing a with
  | _ b ih =>
    by_cases hb : b < 10
    · have ha : a < 10 := by omega
      rw [numberLength, if_pos ha, numberLength, if_pos hb]
    · by_cases ha : a < 10
      · rw [numberLength, if_pos ha]
        exact numberLength_pos b
      · have ea : numberLength a = 1 + numberLength (a / 10) := by
          rw [numberLength]
          rw [if_neg ha]
        have eb : numberLength b = 1 + numberLength (b / 10) := by
          rw [numberLength]
          rw [if_neg hb]
        rw [ea, eb]
        have hdiv : a / 10 ≤ b / 10 := Nat.div_le_div_right h
        have hlt : b / 10 < b := Nat.div_lt_self (by omega) (by omega)
        exact Nat.add_le_add_left (ih (b / 10) hlt (a / 10) hdiv) 1

/-- C4: with a non-null parent editor, `updateEditorLineCount` sets the
gutter's fixed width to 15 plus the horizontal advance of `'9'` times
the number of decimal digits of the block count; for a fixed font
(equal advance), the resulting width is monotone in the block count. -/
theorem updateEditorLineCount_width (st st2 : LineNumberArea)
    (p p2 : ParentEditor)
    (hp : st.codeEditParent = some p) (hp2 : st2.codeEditParent = some p2)
    (hadv : p2.advance9 = p.advance9)
    (hbc : p.blockCount ≤ p2.blockCount) :
    (updateEditorLineCount st).fixedWidth =
      15 + (p.advance9 : Int) * (numberLength p.blockCount : Int) ∧
    (updateEditorLineCount st).fixedWidth ≤
      (updateEditorLineCount st2).fixedWidth := by
  have e1 : (updateEditorLineCount st).fixedWidth =
      15 + (p.advance9 : Int) * (numberLength p.blockCount : Int) := by
    rw [updateEditorLineCount, hp]
  have e2 : (updateEditorLineCount st2).fixedWidth =
      15 + (p2.advance9 : Int) * (numberLength p2.blockCount : Int) := by
    rw [updateEditorLineCount, hp2]
  refine ⟨e1, ?_⟩
  rw [e1, e2, hadv]
  have hd : (numberLength p.blockCount : Int) ≤
      (numberLength p2.blockCount : Int) := by
    exact_mod_cast numberLength_mono _ _ hbc
  have hnn : (0 : Int) ≤ (p.advance9 : Int) := Int.natCast_nonneg _
  exact add_le_add_left (mul_le_mul_of_nonneg_left hd hnn) 15

/-- Witness for C4: a 9-line and a 10-line document with advance 7 give
widths 22 and 29. -/
theorem updateEditorLineCount_width_witness :
    (updateEditorLineCount ⟨some ⟨9, 7⟩, 0⟩).fixedWidth =
      15 + ((7 : Nat) : Int) * (numberLength 9 : Int) ∧
    (updateEditorLineCount ⟨some ⟨9, 7⟩, 0⟩).fixedWidth ≤
      (updateEditorLineCount ⟨some ⟨10, 7⟩, 0⟩).fixedWidth :=
  updateEditorLineCount_width ⟨some ⟨9, 7⟩, 0⟩ ⟨some ⟨10, 7⟩, 0⟩
    ⟨9, 7⟩ ⟨10, 7⟩ rfl rfl rfl (by decide)

/-- C5: every (block number, text) pair drawn by the block loop of
`QLineNumberArea::paintEvent` has text the decimal representation of
the zero-based block number plus one — line numbers are 1-based. -/
theorem paintEvent_draws_one_based (blocks : List BlockInfo)
    (bn n : Nat) (top dirtyTop dirtyBottom : Int) (s : String)
    (hmem : (n, s) ∈ paintLoopDrawn blocks bn top dirtyTop dirtyBottom) :
    s = Nat.repr (n + 1) := by
  induction blocks generalizing bn top with
  | nil => simp [paintLoopDrawn] at hmem
  | cons b rest ih =>
      rw [paintLoopDrawn] at hmem
      by_cases h1 : top ≤ dirtyBottom
      · rw [if_pos h1] at hmem
        rcases List.mem_append.mp hmem with h | h
        · by_cases h2 : (b.isVisible && decide (dirtyTop ≤ top + b.height))
            = true
          · rw [if_pos h2, List.mem_singleton, Prod.mk.injEq] at h
            rw [h.2, h.1]
          · rw [if_neg h2] at h
            simp at h
        · exact ih (bn + 1) (top + b.height) h
      · rw [if_neg h1] at hmem
        simp at hmem

/-- Witness for C5: one visible block of height 10 starting the paint at
block number 0 draws the text of `0 + 1`. -/
theorem paintEvent_draws_one_based_witness : "1" = Nat.repr (0 + 1) :=
  paintEvent_draws_one_based [⟨true, 10⟩] 0 0 0 0 100 "1" (by decide)

/-- C3: `addDiagnostic` records the diagnostic for display (list, span
tree, gutter markers) and `clearDiagnostics` clears that display
state; neither operation modifies the document's text content. -/
theorem diagnostics_preserve_document_text (st : EditorState)
    (severity : DiagnosticSeverity) (spanStart spanEnd : Int)
    (message code : String) (startLine endLine : Int) :
    (addDiagnostic st severity spanStart spanEnd message code
        startLine endLine).documentText = st.documentText ∧
    (addDiagnostic st severity spanStart spanEnd message code
        startLine endLine).diagnostics =
      st.diagnostics ++ [⟨severity, spanStart, spanEnd, message, code⟩] ∧
    (clearDiagnostics st).documentText = st.documentText ∧
    (clearDiagnostics st).diagnostics = [] ∧
    (clearDiagnostics st).diagSpans = [] :=
  ⟨rfl, rfl, rfl, rfl, rfl⟩

/-- C9 counterexample: with a comment block rule whose start and end
patterns do not match the block's text, the block formatted after a
previous block left the comment open (state 0) is wholly
comment-formatted, while the same block with no carried-over state
(state -1) gets no format at all — the highlighters' formats are not
determined solely by matching the fixed rules against the block's own
text. -/
theorem highlightBlock_reads_previous_block_state :
    highlightBlock
      ⟨[], [⟨fun _ => none, fun _ => none, "Comment"⟩],
        ⟨fun _ => [], "Preprocessor"⟩, ⟨fun _ => [], "Type"⟩,
        ⟨fun _ => [], "Type"⟩, "doc"⟩ 0 "int x;" ≠
    highlightBlock
      ⟨[], [⟨fun _ => none, fun _ => none, "Comment"⟩],
        ⟨fun _ => [], "Preprocessor"⟩, ⟨fun _ => [], "Type"⟩,
        ⟨fun _ => [], "Type"⟩, "doc"⟩ (-1) "int x;" := by
  decide

/-- C9 (amended): highlighting is regex-driven, not grammar-based — the
formats a highlighter assigns to a block, and the state it hands the
next block, are determined solely by its fixed regular-expression rules
(the highlight-rule vector, the include / function / defType patterns,
and the multi-line block rules) applied to the block's text together
with the previous block's state: two highlighter states agreeing on all
rule members produce identical output on every block and prior state,
whatever other context they carry. -/
theorem highlightBlock_only_regex_rules (st1 st2 : HighlighterState)
    (prevState : Int) (text : String)
    (hrules : st1.highlightRules = st2.highlightRules)
    (hblock : st1.highlightBlockRules = st2.highlightBlockRules)
    (hinc : st1.includePattern = st2.includePattern)
    (hfn : st1.functionPattern = st2.functionPattern)
    (hdt : st1.defTypePattern = st2.defTypePattern) :
    highlightBlock st1 prevState text = highlightBlock st2 prevState text := by
  simp only [highlightBlock, hrules, hblock, hinc, hfn, hdt]

/-- Witness for C9 (amended): two highlighter states with the same
keyword rule and comment block rule but different attached documents
highlight the same block, in the same prior state, identically. -/
theorem highlightBlock_only_regex_rules_witness :
    highlightBlock
      ⟨[⟨fun _ => [(0, 2)], "Keyword"⟩],
        [⟨fun _ => none, fun _ => none, "Comment"⟩],
        ⟨fun _ => [], "Preprocessor"⟩, ⟨fun _ => [], "Type"⟩,
        ⟨fun _ => [], "Type"⟩, "doc a"⟩ 0 "if x" =
    highlightBlock
      ⟨[⟨fun _ => [(0, 2)], "Keyword"⟩],
        [⟨fun _ => none, fun _ => none, "Comment"⟩],
        ⟨fun _ => [], "Preprocessor"⟩, ⟨fun _ => [], "Type"⟩,
        ⟨fun _ => [], "Type"⟩, "doc b"⟩ 0 "if x" :=
  highlightBlock_only_regex_rules
    ⟨[⟨fun _ => [(0, 2)], "Keyword"⟩],
      [⟨fun _ => none, fun _ => none, "Comment"⟩],
      ⟨fun _ => [], "Preprocessor"⟩, ⟨fun _ => [], "Type"⟩,
      ⟨fun _ => [], "Type"⟩, "doc a"⟩
    ⟨[⟨fun _ => [(0, 2)], "Keyword"⟩],
      [⟨fun _ => none, fun _ => none, "Comment"⟩],
      ⟨fun _ => [], "Preprocessor"⟩, ⟨fun _ => [], "Type"⟩,
      ⟨fun _ => [], "Type"⟩, "doc b"⟩
    0 "if x" rfl rfl rfl rfl rfl

end QCodeEditorSpec
